import Mathlib

/-!
A shallow embedding of `src/socket_listener.py` (class `SocketListener`) from
the RocketSimVis repository, together with theorems checking the natural
language specification of its state-ingestion layer against the code.

Modelling conventions:

* Wall-clock time (`time.time()`) is modelled by a `clock : Nat → Time`
  function together with a `tick` counter in the loop state: each call to
  `time.time()` reads `clock tick` and increments `tick`.  Time is `Int`
  so that intervals (differences) behave like real subtraction.
* `json.loads(data.decode("utf-8"))` is modelled by an abstract parameter
  `decode : Bytes → Json ⊕ DecodeErr`, where `Json` is an opaque document
  type (we use `Nat` as the carrier; the listener never inspects documents).
  `Sum.inr err` models a raised `json.decoder.JSONDecodeError` carrying
  `err.pos` and `err.doc`.
* `state_manager.global_state_manager.state.read_from_json j` is modelled by
  an abstract predicate `readOk : Json → Bool`; when it is `false` the call
  raises (the exception is caught by the loop) and the global document is
  left unchanged, when `true` the global document becomes `some j`.
* Socket receive behaviour is modelled by event traces: for the UDP loop one
  event per `recvfrom` call, and for stream sockets a byte stream plus a
  schedule of `recv` outcomes (`SockEvent`).  A `stop` event models the
  external thread calling `stop_async()` (setting `should_run := False`)
  while the loop is blocked in a socket call.
* Each loop-body step returns the list of lines it printed.  The run-level
  folds (`udpRun`, `streamLoopGo`) drop this per-iteration output; it is
  recovered per step from `udpStep` / `streamBody`.
-/

abbrev Bytes := List Nat

abbrev Json := Nat

abbrev Time := Int

/-- The data of a raised `json.decoder.JSONDecodeError`: the failure
position `pos` (`err.pos`), the document being parsed (`err.doc`), and the
parser's message.  `str(err)` renders as `msg` followed by line/column and
`(char pos)` information. -/
structure DecodeErr where
  pos : Nat
  doc : String
  msg : String
deriving DecidableEq, Repr

/-- Models CPython's `str(err)` for a `JSONDecodeError`, which always ends
with the character offset: `"<msg>: line <l> column <c> (char <pos>)"`.
Line and column are not separately modelled. -/
def errStr (e : DecodeErr) : String :=
  e.msg ++ " (char " ++ toString e.pos ++ ")"

/-- One `(j, recv_time, recv_time - prev_recv_time)` tuple as appended to
`self._state_queue` by the run loops in headless-buffer mode. -/
structure Entry where
  doc : Json
  recv_time : Time
  interval : Time
deriving DecidableEq, Repr

/-- The fields of `SocketListener` relevant to the run loops
(`__init__`, `src/socket_listener.py` lines 12-22). -/
structure Listener where
  has_received : Bool
  buffer_size : Nat
  should_run : Bool
  connection_closed : Bool
  headless_buffer : Bool
  state_queue : List Entry
deriving DecidableEq, Repr

/-- `SocketListener.__init__` (lines 12-22): `has_received = False`,
`buffer_size = 1024 * 1024`, `should_run = True`, `connection_closed = False`,
`_headless_buffer = False`, `_state_queue = deque()`. -/
def Listener.init : Listener :=
  { has_received := false
    buffer_size := 1024 * 1024
    should_run := true
    connection_closed := false
    headless_buffer := false
    state_queue := [] }

/-- `SocketListener.enable_headless_buffer` (lines 24-27). -/
def Listener.enable_headless_buffer (l : Listener) : Listener :=
  { l with headless_buffer := true }

/-- `SocketListener.pop_state` (lines 29-34): pop the next buffered state
dict from the front of the deque, or `None` if empty. -/
def Listener.pop_state (l : Listener) : Option Entry × Listener :=
  match l.state_queue with
  | [] => (none, l)
  | e :: rest => (some e, { l with state_queue := rest })

/-- `SocketListener.queue_size` (lines 36-38). -/
def Listener.queue_size (l : Listener) : Nat :=
  l.state_queue.length

/-- `SocketListener.stop_async` (lines 92-93). -/
def Listener.stop_async (l : Listener) : Listener :=
  { l with should_run := false }

/-- Iterated `pop_state`: the list of results of `n` successive calls,
paired with the final listener. -/
def popN (l : Listener) : Nat → List (Option Entry) × Listener
  | 0 => ([], l)
  | n + 1 =>
    let (r, l1) := l.pop_state
    let (rs, l2) := popN l1 n
    (r :: rs, l2)

/-- The live-mode sink: `state_manager.global_state_manager.state`, restricted
to the fields the listener writes (the `read_from_json` result, `recv_time`,
`recv_interval`; lines 80-88 and 197-205). -/
structure GlobalState where
  doc : Option Json
  recv_time : Time
  recv_interval : Time
deriving DecidableEq, Repr

/-- Shared state of a run loop: the listener, the live-mode global state,
the loop-local `prev_recv_time`, and the clock tick counter. -/
structure LoopState where
  lst : Listener
  gs : GlobalState
  prev_recv_time : Time
  tick : Nat
deriving DecidableEq, Repr

/-- Delivery of a successfully decoded document `j` (lines 71-90 of the UDP
loop and 190-207 of the stream loop, after `json.loads` succeeded):
`recv_time = time.time()`; in headless mode append
`(j, recv_time, recv_time - prev_recv_time)` to the queue, otherwise run
`read_from_json` under the mutex (the exception is caught and an error line
printed — the traceback body is not modelled — and the document stays
unchanged on failure) and overwrite `recv_time` / `recv_interval`; in both
modes `prev_recv_time = recv_time` afterwards. -/
def deliver (readOk : Json → Bool) (clock : Nat → Time) (j : Json)
    (s : LoopState) : LoopState × List String :=
  let recv_time := clock s.tick
  let s := { s with tick := s.tick + 1 }
  if s.lst.headless_buffer then
    ({ s with
        lst := { s.lst with
          state_queue := s.lst.state_queue ++
            [⟨j, recv_time, recv_time - s.prev_recv_time⟩] }
        prev_recv_time := recv_time }, [])
  else
    let doc1 := if readOk j then some j else s.gs.doc
    ({ s with
        gs := { doc := doc1
                recv_time := recv_time
                recv_interval := recv_time - s.prev_recv_time }
        prev_recv_time := recv_time },
     if readOk j then [] else ["ERROR reading received JSON:"])

/-- `snippet` of the UDP decode diagnostic (lines 62-64):
`err.doc[max(0, err.pos - 10) : min(err.pos + 10, len(err.doc) - 1)]` with
`'\r'` removed and `'\n'` replaced by a space. -/
def snippetOf (e : DecodeErr) : String :=
  let start := e.pos - 10
  let stop := min (e.pos + 10) (e.doc.length - 1)
  String.mk
    (((e.doc.toList.drop start).take (stop - start)).filter
        (fun c => c ≠ '\r') |>.map (fun c => if c = '\n' then ' ' else c))

/-- The underline line of the UDP decode diagnostic (line 66): spaces up to
`len(snippet) // 2 + len(snippet_prefix)`, then the caret marker. -/
def caretLineOf (e : DecodeErr) : String :=
  String.mk (List.replicate ((snippetOf e).length / 2 +
    "Received JSON: ".length) ' ') ++ "^ HERE"

/-- The lines printed by the UDP loop when `json.loads` raises
(lines 60-68): the error (with its character offset), the snippet line, and
the caret line. -/
def udpJsonErrorLog (e : DecodeErr) : List String :=
  ["ERROR parsing received text to JSON: " ++ errStr e,
   "\t" ++ "Received JSON: " ++ snippetOf e,
   "\t" ++ caretLineOf e]

/-- The line printed by the stream loop when `json.loads` raises
(line 187): the error only, no snippet and no caret. -/
def streamJsonErrorLog (e : DecodeErr) : List String :=
  ["ERROR parsing received JSON: " ++ errStr e]

/-- The warning printed by the stream loop for an oversized frame
(line 174). -/
def oversizedWarning (msg_len : Nat) : String :=
  "WARNING: message too large (" ++ toString msg_len ++ " bytes), skipping"

/-- One outcome of `sock.recvfrom(self.buffer_size)` in the UDP loop
(lines 50-53), or an interleaved `stop_async()` call (a `stop` event stands
for an iteration in which the flag was cleared and the pending `recvfrom`
then timed out).  The bare `except:` on line 52 catches both timeouts and
other socket errors, so both are separate constructors here although the
code treats them alike. -/
inductive UdpEvent where
  | timeout
  | oserror
  | datagram (data : Bytes)
  | stop
deriving DecidableEq, Repr

/-- One iteration of the UDP datagram loop body (`SocketListener.run`,
lines 50-90), given the outcome of its `recvfrom` call; returns the new
state and the printed lines. -/
def udpStep (decode : Bytes → Json ⊕ DecodeErr) (readOk : Json → Bool)
    (clock : Nat → Time) (s : LoopState) (ev : UdpEvent) :
    LoopState × List String :=
  match ev with
  | .stop => ({ s with lst := s.lst.stop_async }, [])
  | .timeout => (s, [])
  | .oserror => (s, [])
  | .datagram data =>
    let s := { s with lst := { s.lst with has_received := true } }
    match decode data with
    | .inr err => (s, udpJsonErrorLog err)
    | .inl j => deliver readOk clock j s

/-- The UDP datagram loop (`SocketListener.run`, lines 49-90): fold the body
over a finite trace of `recvfrom` outcomes, checking `self.should_run` at
the top of each iteration (per-iteration printed output is dropped here). -/
def udpRun (decode : Bytes → Json ⊕ DecodeErr) (readOk : Json → Bool)
    (clock : Nat → Time) : List UdpEvent → LoopState → LoopState
  | [], s => s
  | ev :: rest, s =>
    if s.lst.should_run then
      udpRun decode readOk clock rest (udpStep decode readOk clock s ev).1
    else s

/-- Initial state of a run loop: `prev_recv_time = time.time()` at loop start
(line 48 for UDP, line 159 for the stream loop), consuming clock tick 0. -/
def loopStart (clock : Nat → Time) (l : Listener) (g : GlobalState) :
    LoopState :=
  { lst := l, gs := g, prev_recv_time := clock 0, tick := 1 }

/-- One outcome of a `sock.recv(k)` call on a stream socket, or an
interleaved `stop_async()` call.  `avail k` means the kernel returns up to
`k` bytes: `recv(req)` yields `min k req` bytes from the front of the
pending byte stream (an empty result models EOF, i.e. the peer closed). -/
inductive SockEvent where
  | avail (k : Nat)
  | timeout
  | oserror
  | stop
deriving DecidableEq, Repr

/-- A stream socket: the bytes the peer has sent (in order), and the
schedule of `recv` outcomes. -/
structure StreamSock where
  bytes : Bytes
  events : List SockEvent
deriving DecidableEq, Repr

/-- `SocketListener._recv_exactly(sock, n)` (lines 95-110), threading the
current value of `self.should_run` (cleared by `stop` events).  Returns the
`Option Bytes` result together with the remaining socket and the final
`should_run` value.  The accumulator `buf` starts empty. -/
def recvExactlyGo (n : Nat) : Bytes → Bool → Bytes → List SockEvent →
    Option Bytes × StreamSock × Bool
  | buf, sr, bytes, [] =>
    if buf.length < n then (none, ⟨bytes, []⟩, sr)
    else (some buf, ⟨bytes, []⟩, sr)
  | buf, sr, bytes, ev :: rest =>
    if buf.length < n then
      match ev with
      | .stop => recvExactlyGo n buf false bytes rest
      | .timeout =>
        if sr then recvExactlyGo n buf sr bytes rest
        else (none, ⟨bytes, rest⟩, sr)
      | .oserror => (none, ⟨bytes, rest⟩, sr)
      | .avail k =>
        let chunk := bytes.take (min k (n - buf.length))
        if chunk.isEmpty then (none, ⟨bytes, rest⟩, sr)
        else recvExactlyGo n (buf ++ chunk) sr (bytes.drop chunk.length) rest
    else (some buf, ⟨bytes, ev :: rest⟩, sr)

/-- `self._recv_exactly(sock, n)` called with an empty buffer. -/
def recvExactly (n : Nat) (sr : Bool) (sock : StreamSock) :
    Option Bytes × StreamSock × Bool :=
  recvExactlyGo n [] sr sock.bytes sock.events

/-- `struct.unpack("!I", hdr)` on a 4-byte header (line 170):
big-endian unsigned 32-bit integer. -/
def beU32 (b : Bytes) : Nat :=
  b.foldl (fun acc x => acc * 256 + x % 256) 0

/-- Result of one iteration of the shared stream loop body: continue with
the new state, or break out of the `while` loop. -/
inductive StepRes where
  | cont (s : LoopState) (sock : StreamSock)
  | brk (s : LoopState) (sock : StreamSock)
deriving DecidableEq, Repr

/-- One iteration of `SocketListener._run_stream_loop` (lines 161-207):
read the 4-byte header (breaking on failure, with the EOF notice printed
only when `should_run` is still set), handle `msg_len == 0` and oversized
frames, read the body, decode, and deliver; returns the result and the
printed lines. -/
def streamBody (decode : Bytes → Json ⊕ DecodeErr) (readOk : Json → Bool)
    (clock : Nat → Time) (label : String) (s : LoopState)
    (sock : StreamSock) : StepRes × List String :=
  let (hdr?, sock, sr) := recvExactly 4 s.lst.should_run sock
  let s := { s with lst := { s.lst with should_run := sr } }
  match hdr? with
  | none =>
    (.brk s sock,
     if s.lst.should_run then [label ++ " EOF, shutting down listener."]
     else [])
  | some hdr =>
    let msg_len := beU32 hdr
    if msg_len = 0 then (.cont s sock, [])
    else if msg_len > s.lst.buffer_size then
      let (_, sock, sr) := recvExactly msg_len s.lst.should_run sock
      (.cont { s with lst := { s.lst with should_run := sr } } sock,
       [oversizedWarning msg_len])
    else
      let (data?, sock, sr) := recvExactly msg_len s.lst.should_run sock
      let s := { s with lst := { s.lst with should_run := sr } }
      match data? with
      | none => (.brk s sock, [])
      | some data =>
        let s := { s with lst := { s.lst with has_received := true } }
        match decode data with
        | .inr err => (.cont s sock, streamJsonErrorLog err)
        | .inl j =>
          let (s1, lg) := deliver readOk clock j s
          (.cont s1 sock, lg)

/-- The `while self.should_run` loop of `_run_stream_loop` (lines 160-207),
fuelled (each execution of the body consumes one unit).  The `Bool` result
is `true` when the `while` loop exited (by its condition or a `break`) and
`false` when the fuel ran out mid-loop; per-iteration printed output is
dropped here. -/
def streamLoopGo (decode : Bytes → Json ⊕ DecodeErr) (readOk : Json → Bool)
    (clock : Nat → Time) (label : String) :
    Nat → LoopState → StreamSock → LoopState × StreamSock × Bool
  | 0, s, sock => (s, sock, false)
  | fuel + 1, s, sock =>
    if s.lst.should_run then
      match streamBody decode readOk clock label s sock with
      | (.brk s1 sock1, _) => (s1, sock1, true)
      | (.cont s1 sock1, _) => streamLoopGo decode readOk clock label fuel s1 sock1
    else (s, sock, true)

/-- `SocketListener._run_stream_loop` (lines 156-210): run the loop, then on
exit `sock.close(); self.connection_closed = True` (lines 209-210, reached
unconditionally whenever the `while` loop exits). -/
def streamLoop (decode : Bytes → Json ⊕ DecodeErr) (readOk : Json → Bool)
    (clock : Nat → Time) (label : String) (fuel : Nat) (s : LoopState)
    (sock : StreamSock) : LoopState × StreamSock × Bool :=
  match streamLoopGo decode readOk clock label fuel s sock with
  | (s1, sock1, true) =>
    ({ s1 with lst := { s1.lst with connection_closed := true } }, sock1, true)
  | (s1, sock1, false) => (s1, sock1, false)

/-- The header read, the zero and oversized checks, and the body read of one
stream-loop iteration succeeding with body `data` (lines 162-179): used to
state claims about what the loop does once a well-formed in-bounds frame has
been fully received. -/
def streamReadsFrame (s : LoopState) (sock : StreamSock) (data : Bytes)
    (sock2 : StreamSock) (sr2 : Bool) : Prop :=
  ∃ hdr sock1 sr1,
    recvExactly 4 s.lst.should_run sock = (some hdr, sock1, sr1) ∧
    beU32 hdr ≠ 0 ∧ beU32 hdr ≤ s.lst.buffer_size ∧
    recvExactly (beU32 hdr) sr1 sock1 = (some data, sock2, sr2)

/-- The interval baseline and both delivery sinks are untouched between two
states (what a run-loop iteration guarantees when no message was
successfully decoded). -/
def baselineKept (s s1 : LoopState) : Prop :=
  s1.prev_recv_time = s.prev_recv_time ∧
  s1.lst.state_queue = s.lst.state_queue ∧
  s1.gs = s.gs ∧ s1.tick = s.tick

/-- A run-loop iteration delivered document `j`: the interval baseline
advanced to the fresh `recv_time` and the active sink received
`(j, recv_time, recv_time - prev_recv_time)` (buffered mode) or was
overwritten with those timestamps (live mode). -/
def baselineAdvanced (clock : Nat → Time) (j : Json) (s s1 : LoopState) :
    Prop :=
  s1.prev_recv_time = clock s.tick ∧ s1.tick = s.tick + 1 ∧
  (s.lst.headless_buffer = true →
    s1.lst.state_queue = s.lst.state_queue ++
      [⟨j, clock s.tick, clock s.tick - s.prev_recv_time⟩] ∧
    s1.gs = s.gs) ∧
  (s.lst.headless_buffer = false →
    s1.lst.state_queue = s.lst.state_queue ∧
    s1.gs.recv_time = clock s.tick ∧
    s1.gs.recv_interval = clock s.tick - s.prev_recv_time)

/-- `entries` is a gapless interval chain starting from baseline `t`: each
entry's `interval` is its `recv_time` minus the `recv_time` of the previous
entry (or minus `t` for the first entry). -/
def chainFrom (t : Time) : List Entry → Prop
  | [] => True
  | e :: rest => e.interval = e.recv_time - t ∧ chainFrom e.recv_time rest

/-- The `recv_time` of the last entry, or the default `t` when there is
none. -/
def lastRecv (t : Time) : List Entry → Time
  | [] => t
  | e :: rest => lastRecv e.recv_time rest

/-! ### Concrete instances used to witness the theorems -/

/-- A sample decoder: two-byte payloads decode to their first byte, anything
else raises with a fixed error at offset 2. -/
def cdecode : Bytes → Json ⊕ DecodeErr :=
  fun b => if b.length = 2 then .inl (b.headD 0)
           else .inr ⟨2, "xy bad json", "Expecting value"⟩

/-- A sample `read_from_json` behaviour: document `9` raises, all others
apply cleanly. -/
def creadOk : Json → Bool := fun j => decide (j ≠ 9)

/-- A sample wall clock: tick `n` happens at time `10 * n`. -/
def cclock : Nat → Time := fun n => 10 * (n : Int)

/-- A sample initial global state. -/
def cgs : GlobalState := ⟨none, 0, 0⟩

/-- A headless listener with a tiny 2-byte frame ceiling, to exercise the
oversized-frame path on small inputs. -/
def clst : Listener :=
  { Listener.init.enable_headless_buffer with buffer_size := 2 }

/-- Loop state at the start of a run over `clst`. -/
def cs0 : LoopState := loopStart cclock clst cgs

/-- Loop state at the start of a headless run over a fresh listener. -/
def cs1 : LoopState := loopStart cclock Listener.init.enable_headless_buffer cgs

/-- Loop state at the start of a live-mode run over a fresh listener. -/
def cs2 : LoopState := loopStart cclock Listener.init cgs

/-! ### Lemmas about `_recv_exactly` -/

lemma recvExactlyGo_some (n : Nat) :
    ∀ (evs : List SockEvent) (buf bytes : Bytes) (sr : Bool) (data : Bytes)
      (sock1 : StreamSock) (sr1 : Bool),
      buf.length ≤ n →
      recvExactlyGo n buf sr bytes (evs) = (some data, sock1, sr1) →
      data = buf ++ bytes.take (n - buf.length) ∧ data.length = n ∧
        sock1.bytes = bytes.drop (n - buf.length) := by
  intro evs
  induction evs with
  | nil =>
    intro buf bytes sr data sock1 sr1 hle h
    rw [recvExactlyGo.eq_def] at h
    by_cases hlt : buf.length < n
    · simp [hlt] at h
    · have heq : buf.length = n := by omega
      simp only [if_neg hlt, Prod.mk.injEq, Option.some.injEq] at h
      obtain ⟨h1, h2, _⟩ := h
      subst h1
      simp [← h2, heq]
  | cons ev rest ih =>
    intro buf bytes sr data sock1 sr1 hle h
    rw [recvExactlyGo.eq_def] at h
    by_cases hlt : buf.length < n
    · simp only [if_pos hlt] at h
      cases ev with
      | stop => exact ih buf bytes false data sock1 sr1 hle h
      | timeout =>
        by_cases hsr : sr
        · subst hsr
          simp only [if_pos rfl] at h
          exact ih buf bytes true data sock1 sr1 hle h
        · simp only [Bool.not_eq_true] at hsr
          subst hsr
          simp at h
      | oserror => simp at h
      | avail k =>
        simp only at h
        by_cases hch : (bytes.take (min k (n - buf.length))).isEmpty
        · simp [hch] at h
        · simp only [hch, Bool.false_eq_true, if_false] at h
          set c := (bytes.take (min k (n - buf.length))).length with hc
          have hcle : c ≤ n - buf.length := by
            rw [hc, List.length_take]; omega
          have hlen : (buf ++ bytes.take (min k (n - buf.length))).length =
              buf.length + c := by simp [hc]
          have hble : (buf ++ bytes.take (min k (n - buf.length))).length ≤ n := by
            rw [hlen]; omega
          obtain ⟨h1, h2, h3⟩ :=
            ih (buf ++ bytes.take (min k (n - buf.length))) (bytes.drop c) sr
              data sock1 sr1 hble h
          rw [hlen] at h1 h3
          have hidx : n - (buf.length + c) = n - buf.length - c := by omega
          rw [hidx] at h1 h3
          have hchunk : bytes.take (min k (n - buf.length)) = bytes.take c := by
            rw [List.take_eq_take]
            rw [hc, List.length_take]
            omega
          have hsplit : bytes.take c ++ (bytes.drop c).take (n - buf.length - c) =
              bytes.take (n - buf.length) := by
            have hadd : c + (n - buf.length - c) = n - buf.length := by omega
            conv_rhs => rw [← hadd]
            rw [List.take_add]
          refine ⟨?_, h2, ?_⟩
          · rw [h1, hchunk, List.append_assoc, hsplit]
          · rw [h3, List.drop_drop]
            congr 1
            omega
    · simp only [if_neg hlt, Prod.mk.injEq, Option.some.injEq] at h
      have heq : buf.length = n := by omega
      obtain ⟨h1, h2, _⟩ := h
      subst h1
      simp [← h2, heq]

/-- `_recv_exactly` success, from an empty buffer: exactly `n` bytes are
collected, they are the first `n` pending bytes, and the socket is left
positioned right after them. -/
lemma recvExactly_some {n : Nat} {sock : StreamSock} {sr : Bool}
    {data : Bytes} {sock1 : StreamSock} {sr1 : Bool}
    (h : recvExactly n sr sock = (some data, sock1, sr1)) :
    data = sock.bytes.take n ∧ data.length = n ∧
      sock1.bytes = sock.bytes.drop n := by
  obtain ⟨bytes, evs⟩ := sock
  have := recvExactlyGo_some n evs [] bytes sr data sock1 sr1 (by simp) h
  simpa using this

/-! ### One-iteration characterizations of the stream loop body -/

lemma streamBody_hdr_none {decode : Bytes → Json ⊕ DecodeErr}
    {readOk : Json → Bool} {clock : Nat → Time} {label : String}
    {s : LoopState} {sock sock1 : StreamSock} {sr1 : Bool}
    (h : recvExactly 4 s.lst.should_run sock = (none, sock1, sr1)) :
    streamBody decode readOk clock label s sock =
      (.brk { s with lst := { s.lst with should_run := sr1 } } sock1,
       if sr1 then [label ++ " EOF, shutting down listener."] else []) := by
  simp [streamBody, h]

lemma streamBody_zero {decode : Bytes → Json ⊕ DecodeErr}
    {readOk : Json → Bool} {clock : Nat → Time} {label : String}
    {s : LoopState} {sock sock1 : StreamSock} {hdr : Bytes} {sr1 : Bool}
    (h : recvExactly 4 s.lst.should_run sock = (some hdr, sock1, sr1))
    (hz : beU32 hdr = 0) :
    streamBody decode readOk clock label s sock =
      (.cont { s with lst := { s.lst with should_run := sr1 } } sock1, []) := by
  simp [streamBody, h, hz]

lemma streamBody_oversized {decode : Bytes → Json ⊕ DecodeErr}
    {readOk : Json → Bool} {clock : Nat → Time} {label : String}
    {s : LoopState} {sock sock1 sock2 : StreamSock} {hdr : Bytes}
    {sr1 sr2 : Bool} {dr : Option Bytes}
    (h1 : recvExactly 4 s.lst.should_run sock = (some hdr, sock1, sr1))
    (hov : s.lst.buffer_size < beU32 hdr)
    (h2 : recvExactly (beU32 hdr) sr1 sock1 = (dr, sock2, sr2)) :
    streamBody decode readOk clock label s sock =
      (.cont { s with lst := { s.lst with should_run := sr2 } } sock2,
       [oversizedWarning (beU32 hdr)]) := by
  have h0 : beU32 hdr ≠ 0 := by omega
  simp [streamBody, h1, h0, hov, h2]

lemma streamBody_body_none {decode : Bytes → Json ⊕ DecodeErr}
    {readOk : Json → Bool} {clock : Nat → Time} {label : String}
    {s : LoopState} {sock sock1 sock2 : StreamSock} {hdr : Bytes}
    {sr1 sr2 : Bool}
    (h1 : recvExactly 4 s.lst.should_run sock = (some hdr, sock1, sr1))
    (h0 : beU32 hdr ≠ 0) (hle : beU32 hdr ≤ s.lst.buffer_size)
    (h2 : recvExactly (beU32 hdr) sr1 sock1 = (none, sock2, sr2)) :
    streamBody decode readOk clock label s sock =
      (.brk { s with lst := { s.lst with should_run := sr2 } } sock2, []) := by
  have hno : ¬ (s.lst.buffer_size < beU32 hdr) := by omega
  simp [streamBody, h1, h0, hno, h2]

lemma streamBody_decode_err {decode : Bytes → Json ⊕ DecodeErr}
    {readOk : Json → Bool} {clock : Nat → Time} {label : String}
    {s : LoopState} {sock sock1 sock2 : StreamSock} {hdr data : Bytes}
    {sr1 sr2 : Bool} {e : DecodeErr}
    (h1 : recvExactly 4 s.lst.should_run sock = (some hdr, sock1, sr1))
    (h0 : beU32 hdr ≠ 0) (hle : beU32 hdr ≤ s.lst.buffer_size)
    (h2 : recvExactly (beU32 hdr) sr1 sock1 = (some data, sock2, sr2))
    (hd : decode data = .inr e) :
    streamBody decode readOk clock label s sock =
      (.cont { s with lst :=
          { s.lst with should_run := sr2, has_received := true } } sock2,
       streamJsonErrorLog e) := by
  have hno : ¬ (s.lst.buffer_size < beU32 hdr) := by omega
  simp [streamBody, h1, h0, hno, h2, hd]

lemma streamBody_decode_ok {decode : Bytes → Json ⊕ DecodeErr}
    {readOk : Json → Bool} {clock : Nat → Time} {label : String}
    {s : LoopState} {sock sock1 sock2 : StreamSock} {hdr data : Bytes}
    {sr1 sr2 : Bool} {j : Json}
    (h1 : recvExactly 4 s.lst.should_run sock = (some hdr, sock1, sr1))
    (h0 : beU32 hdr ≠ 0) (hle : beU32 hdr ≤ s.lst.buffer_size)
    (h2 : recvExactly (beU32 hdr) sr1 sock1 = (some data, sock2, sr2))
    (hd : decode data = .inl j) :
    streamBody decode readOk clock label s sock =
      (.cont (deliver readOk clock j { s with lst :=
          { s.lst with should_run := sr2, has_received := true } }).1 sock2,
       (deliver readOk clock j { s with lst :=
          { s.lst with should_run := sr2, has_received := true } }).2) := by
  have hno : ¬ (s.lst.buffer_size < beU32 hdr) := by omega
  simp [streamBody, h1, h0, hno, h2, hd]

/-- Exhaustive shape analysis of one stream-loop iteration: it either breaks
or continues leaving everything but `should_run` untouched, continues having
additionally set `has_received` after a malformed payload, or continues
through `deliver` after a successful decode. -/
lemma streamBody_shapes (decode : Bytes → Json ⊕ DecodeErr)
    (readOk : Json → Bool) (clock : Nat → Time) (label : String)
    (s : LoopState) (sock : StreamSock) :
    (∃ sock1 sr lg, streamBody decode readOk clock label s sock =
      (.brk { s with lst := { s.lst with should_run := sr } } sock1, lg)) ∨
    (∃ sock1 sr lg, streamBody decode readOk clock label s sock =
      (.cont { s with lst := { s.lst with should_run := sr } } sock1, lg)) ∨
    (∃ sock1 sr e, streamBody decode readOk clock label s sock =
      (.cont { s with lst :=
        { s.lst with should_run := sr, has_received := true } } sock1,
       streamJsonErrorLog e)) ∨
    (∃ sock1 sr j, streamBody decode readOk clock label s sock =
      (.cont (deliver readOk clock j { s with lst :=
        { s.lst with should_run := sr, has_received := true } }).1 sock1,
       (deliver readOk clock j { s with lst :=
        { s.lst with should_run := sr, has_received := true } }).2)) := by
  rcases hh : recvExactly 4 s.lst.should_run sock with ⟨hdr?, sock1, sr1⟩
  cases hdr? with
  | none => exact Or.inl ⟨sock1, sr1, _, streamBody_hdr_none hh⟩
  | some hdr =>
    by_cases hz : beU32 hdr = 0
    · exact Or.inr (Or.inl ⟨sock1, sr1, [], streamBody_zero hh hz⟩)
    · by_cases hov : s.lst.buffer_size < beU32 hdr
      · rcases h2 : recvExactly (beU32 hdr) sr1 sock1 with ⟨dr, sock2, sr2⟩
        exact Or.inr (Or.inl ⟨sock2, sr2, _, streamBody_oversized hh hov h2⟩)
      · have hle : beU32 hdr ≤ s.lst.buffer_size := by omega
        rcases h2 : recvExactly (beU32 hdr) sr1 sock1 with ⟨dr, sock2, sr2⟩
        cases dr with
        | none =>
          exact Or.inl ⟨sock2, sr2, _, streamBody_body_none hh hz hle h2⟩
        | some data =>
          cases hd : decode data with
          | inr e =>
            exact Or.inr (Or.inr (Or.inl
              ⟨sock2, sr2, e, streamBody_decode_err hh hz hle h2 hd⟩))
          | inl j =>
            exact Or.inr (Or.inr (Or.inr
              ⟨sock2, sr2, j, streamBody_decode_ok hh hz hle h2 hd⟩))

/-! ### Delivery and run-level invariants -/

lemma deliver_headless (readOk : Json → Bool) (clock : Nat → Time) (j : Json)
    (s : LoopState) (h : s.lst.headless_buffer = true) :
    (deliver readOk clock j s).1 =
      { s with
          lst := { s.lst with state_queue := s.lst.state_queue ++
            [⟨j, clock s.tick, clock s.tick - s.prev_recv_time⟩] }
          prev_recv_time := clock s.tick
          tick := s.tick + 1 } := by
  simp [deliver, h]

lemma deliver_adv (readOk : Json → Bool) (clock : Nat → Time) (j : Json)
    (s s' : LoopState)
    (hq : s'.lst.state_queue = s.lst.state_queue) (hgs : s'.gs = s.gs)
    (hp : s'.prev_recv_time = s.prev_recv_time) (ht : s'.tick = s.tick)
    (hh : s'.lst.headless_buffer = s.lst.headless_buffer) :
    baselineAdvanced clock j s (deliver readOk clock j s').1 := by
  unfold baselineAdvanced
  by_cases hl : s.lst.headless_buffer = true
  · rw [deliver_headless readOk clock j s' (by rw [hh, hl])]
    simp [hl, hq, hgs, hp, ht]
  · simp only [Bool.not_eq_true] at hl
    unfold deliver
    simp [hh, hl, hq, hgs, hp, ht]

lemma streamLoopGo_queue (decode : Bytes → Json ⊕ DecodeErr)
    (readOk : Json → Bool) (clock : Nat → Time) (label : String) :
    ∀ (fuel : Nat) (s : LoopState) (sock : StreamSock),
      s.lst.headless_buffer = true →
      ∃ d, (streamLoopGo decode readOk clock label fuel s sock).1.lst.state_queue =
            s.lst.state_queue ++ d ∧
        chainFrom s.prev_recv_time d ∧
        (streamLoopGo decode readOk clock label fuel s sock).1.prev_recv_time =
          lastRecv s.prev_recv_time d ∧
        (streamLoopGo decode readOk clock label fuel s sock).1.lst.headless_buffer = true := by
  intro fuel
  induction fuel with
  | zero =>
    intro s sock hh
    exact ⟨[], by simp [streamLoopGo, chainFrom, lastRecv, hh]⟩
  | succ fuel ih =>
    intro s sock hh
    by_cases hsr : s.lst.should_run = true
    · rcases streamBody_shapes decode readOk clock label s sock with
        ⟨sock1, sr, lg, heq⟩ | ⟨sock1, sr, lg, heq⟩ | ⟨sock1, sr, e, heq⟩ |
        ⟨sock1, sr, j, heq⟩
      · refine ⟨[], ?_⟩
        simp [streamLoopGo, hsr, heq, chainFrom, lastRecv, hh]
      · obtain ⟨d, h1, h2, h3, h4⟩ :=
          ih { s with lst := { s.lst with should_run := sr } } sock1 (by simp [hh])
        simp only at h1 h2 h3 h4
        refine ⟨d, ?_, h2, ?_, ?_⟩ <;>
          · simp only [streamLoopGo, hsr, if_pos, heq]
            assumption
      · obtain ⟨d, h1, h2, h3, h4⟩ :=
          ih { s with lst :=
            { s.lst with should_run := sr, has_received := true } } sock1
            (by simp [hh])
        simp only at h1 h2 h3 h4
        refine ⟨d, ?_, h2, ?_, ?_⟩ <;>
          · simp only [streamLoopGo, hsr, if_pos, heq]
            assumption
      · have hdel := deliver_headless readOk clock j
          { s with lst := { s.lst with should_run := sr, has_received := true } }
          (by simp [hh])
        obtain ⟨d, h1, h2, h3, h4⟩ :=
          ih ((deliver readOk clock j { s with lst :=
            { s.lst with should_run := sr, has_received := true } }).1) sock1
            (by rw [hdel]; simpa using hh)
        rw [hdel] at h1 h2 h3 h4
        simp only at h1 h2 h3 h4
        refine ⟨⟨j, clock s.tick, clock s.tick - s.prev_recv_time⟩ :: d,
          ?_, ?_, ?_, ?_⟩
        · simp only [streamLoopGo, hsr, if_pos, heq]
          rw [hdel]
          simp only at h1 ⊢
          rw [h1]
          simp
        · exact ⟨by simp, by simpa using h2⟩
        · simp only [streamLoopGo, hsr, if_pos, heq]
          rw [hdel]
          simp only at h3 ⊢
          rw [h3]
          simp [lastRecv]
        · simp only [streamLoopGo, hsr, if_pos, heq]
          rw [hdel]
          exact h4
    · simp only [Bool.not_eq_true] at hsr
      refine ⟨[], ?_⟩
      simp [streamLoopGo, hsr, chainFrom, lastRecv, hh]

lemma udpRun_queue (decode : Bytes → Json ⊕ DecodeErr)
    (readOk : Json → Bool) (clock : Nat → Time) :
    ∀ (evs : List UdpEvent) (s : LoopState),
      s.lst.headless_buffer = true →
      ∃ d, (udpRun decode readOk clock evs s).lst.state_queue =
            s.lst.state_queue ++ d ∧
        chainFrom s.prev_recv_time d ∧
        (udpRun decode readOk clock evs s).prev_recv_time =
          lastRecv s.prev_recv_time d ∧
        (udpRun decode readOk clock evs s).lst.headless_buffer = true := by
  intro evs
  induction evs with
  | nil =>
    intro s hh
    exact ⟨[], by simp [udpRun, chainFrom, lastRecv, hh]⟩
  | cons ev rest ih =>
    intro s hh
    by_cases hsr : s.lst.should_run = true
    · cases ev with
      | stop =>
        obtain ⟨d, h1, h2, h3, h4⟩ :=
          ih { s with lst := s.lst.stop_async } (by simp [Listener.stop_async, hh])
        simp only [Listener.stop_async] at h1 h2 h3 h4
        refine ⟨d, ?_, h2, ?_, ?_⟩ <;>
          · simp only [udpRun, hsr, if_pos, udpStep]
            assumption
      | timeout =>
        obtain ⟨d, h1, h2, h3, h4⟩ := ih s hh
        refine ⟨d, ?_, h2, ?_, ?_⟩ <;>
          · simp only [udpRun, hsr, if_pos, udpStep]
            assumption
      | oserror =>
        obtain ⟨d, h1, h2, h3, h4⟩ := ih s hh
        refine ⟨d, ?_, h2, ?_, ?_⟩ <;>
          · simp only [udpRun, hsr, if_pos, udpStep]
            assumption
      | datagram data =>
        cases hd : decode data with
        | inr e =>
          obtain ⟨d, h1, h2, h3, h4⟩ :=
            ih { s with lst := { s.lst with has_received := true } }
              (by simp [hh])
          simp only at h1 h2 h3 h4
          refine ⟨d, ?_, h2, ?_, ?_⟩
          · simp only [udpRun, hsr, if_pos, udpStep, hd]
            simpa [hsr] using h1
          · simp only [udpRun, hsr, if_pos, udpStep, hd]
            simpa [hsr] using h3
          · simp only [udpRun, hsr, if_pos, udpStep, hd]
            simpa [hsr] using h4
        | inl j =>
          have hstep : udpStep decode readOk clock s (.datagram data) =
              deliver readOk clock j
                { s with lst := { s.lst with has_received := true } } := by
            simp [udpStep, hd]
          have hdel := deliver_headless readOk clock j
            { s with lst := { s.lst with has_received := true } } (by simp [hh])
          simp only at hstep hdel
          obtain ⟨d, h1, h2, h3, h4⟩ :=
            ih ((deliver readOk clock j
              { s with lst := { s.lst with has_received := true } }).1)
              (by rw [hdel]; simpa using hh)
          rw [hdel] at h1 h2 h3 h4
          simp only [hsr] at hstep hdel h1 h3 h4
          refine ⟨⟨j, clock s.tick, clock s.tick - s.prev_recv_time⟩ :: d,
            ?_, ?_, ?_, ?_⟩
          · simp only [udpRun, hsr, if_pos, hstep]
            rw [hdel]
            rw [h1]
            simp
          · exact ⟨by simp, by simpa using h2⟩
          · simp only [udpRun, hsr, if_pos, hstep]
            rw [hdel]
            rw [h3]
            simp [lastRecv]
          · simp only [udpRun, hsr, if_pos, hstep]
            rw [hdel]
            exact h4
    · simp only [Bool.not_eq_true] at hsr
      refine ⟨[], ?_⟩
      simp [udpRun, hsr, chainFrom, lastRecv, hh]

/-! ### FIFO behaviour of `pop_state` -/

lemma popN_exact :
    ∀ (q : List Entry) (l : Listener), l.state_queue = q →
      popN l q.length = (q.map some, { l with state_queue := [] }) := by
  intro q
  induction q with
  | nil =>
    intro l hq
    simp [popN]
    cases l
    simp_all
  | cons e rest ih =>
    intro l hq
    have hpop : l.pop_state = (some e, { l with state_queue := rest }) := by
      simp [Listener.pop_state, hq]
    have := ih { l with state_queue := rest } rfl
    simp [popN, hpop, this]

lemma popN_exact_succ :
    ∀ (q : List Entry) (l : Listener), l.state_queue = q →
      (popN l (q.length + 1)).1 = q.map some ++ [none] := by
  intro q
  induction q with
  | nil =>
    intro l hq
    simp [popN, Listener.pop_state, hq]
  | cons e rest ih =>
    intro l hq
    have hpop : l.pop_state = (some e, { l with state_queue := rest }) := by
      simp [Listener.pop_state, hq]
    have := ih { l with state_queue := rest } rfl
    simp [popN, hpop]
    simpa using this

/-! ### Claim theorems -/

/-- C4: `_recv_exactly(sock, n)` accumulates chunks until exactly `n` bytes
are collected and returns them (they are the first `n` pending stream
bytes); it returns `None` when the stream ends (empty chunk), when a
non-timeout `OSError` occurs, or when a timeout occurs while the
`should_run` flag is false; a timeout while `should_run` is true is retried
and the read continues. -/
theorem recv_exactly_spec :
    (∀ (n : Nat) (sr : Bool) (sock sock1 : StreamSock) (data : Bytes)
       (sr1 : Bool),
      recvExactly n sr sock = (some data, sock1, sr1) →
      data.length = n ∧ data = sock.bytes.take n ∧
        sock1.bytes = sock.bytes.drop n) ∧
    (∀ (n : Nat) (buf bytes : Bytes) (sr : Bool) (k : Nat)
       (rest : List SockEvent),
      buf.length < n → (bytes.take (min k (n - buf.length))).isEmpty = true →
      recvExactlyGo n buf sr bytes (.avail k :: rest) =
        (none, ⟨bytes, rest⟩, sr)) ∧
    (∀ (n : Nat) (buf bytes : Bytes) (sr : Bool) (rest : List SockEvent),
      buf.length < n →
      recvExactlyGo n buf sr bytes (.oserror :: rest) =
        (none, ⟨bytes, rest⟩, sr)) ∧
    (∀ (n : Nat) (buf bytes : Bytes) (rest : List SockEvent),
      buf.length < n →
      recvExactlyGo n buf false bytes (.timeout :: rest) =
        (none, ⟨bytes, rest⟩, false)) ∧
    (∀ (n : Nat) (buf bytes : Bytes) (rest : List SockEvent),
      buf.length < n →
      recvExactlyGo n buf true bytes (.timeout :: rest) =
        recvExactlyGo n buf true bytes (rest)) := by
  refine ⟨?_, ?_, ?_, ?_, ?_⟩
  · intro n sr sock sock1 data sr1 h
    obtain ⟨h1, h2, h3⟩ := recvExactly_some h
    exact ⟨h2, h1, h3⟩
  · intro n buf bytes sr k rest hlt hch
    rw [recvExactlyGo.eq_def]
    simp [hlt, hch]
  · intro n buf bytes sr rest hlt
    rw [recvExactlyGo.eq_def]
    simp [hlt]
  · intro n buf bytes rest hlt
    rw [recvExactlyGo.eq_def]
    simp [hlt]
  · intro n buf bytes rest hlt
    rw [recvExactlyGo.eq_def]
    simp [hlt]

/-- Exhaustive baseline analysis of one stream-loop iteration with the
decoded frame recorded: every iteration either leaves the baseline (and
both sinks) untouched, or it fully read a frame body that JSON-decoded
successfully and advanced the baseline through `deliver`. -/
lemma streamBody_baseline_cases (decode : Bytes → Json ⊕ DecodeErr)
    (readOk : Json → Bool) (clock : Nat → Time) (label : String)
    (s s1 : LoopState) (sock sock1 : StreamSock) (lg : List String)
    (hyp : streamBody decode readOk clock label s sock =
        (.cont s1 sock1, lg) ∨
      streamBody decode readOk clock label s sock = (.brk s1 sock1, lg)) :
    baselineKept s s1 ∨
    ∃ data j sr2, streamReadsFrame s sock data sock1 sr2 ∧
      decode data = .inl j ∧ baselineAdvanced clock j s s1 := by
  rcases hh : recvExactly 4 s.lst.should_run sock with ⟨hdr?, sockA, sr1⟩
  cases hdr? with
  | none =>
    have heq := @streamBody_hdr_none decode readOk clock label s sock sockA
      sr1 hh
    rcases hyp with hyp | hyp <;> rw [heq] at hyp <;>
      simp only [Prod.mk.injEq, StepRes.brk.injEq, reduceCtorEq,
        false_and] at hyp
    obtain ⟨⟨hs1, _⟩, _⟩ := hyp
    left
    rw [← hs1]
    simp [baselineKept]
  | some hdr =>
    by_cases hz : beU32 hdr = 0
    · have heq := @streamBody_zero decode readOk clock label s sock sockA hdr
        sr1 hh hz
      rcases hyp with hyp | hyp <;> rw [heq] at hyp <;>
        simp only [Prod.mk.injEq, StepRes.cont.injEq, reduceCtorEq,
          false_and] at hyp
      obtain ⟨⟨hs1, _⟩, _⟩ := hyp
      left
      rw [← hs1]
      simp [baselineKept]
    · by_cases hov : s.lst.buffer_size < beU32 hdr
      · rcases h2 : recvExactly (beU32 hdr) sr1 sockA with ⟨dr, sockB, sr2⟩
        have heq := @streamBody_oversized decode readOk clock label s sock
          sockA sockB hdr sr1 sr2 dr hh hov h2
        rcases hyp with hyp | hyp <;> rw [heq] at hyp <;>
          simp only [Prod.mk.injEq, StepRes.cont.injEq, reduceCtorEq,
            false_and] at hyp
        obtain ⟨⟨hs1, _⟩, _⟩ := hyp
        left
        rw [← hs1]
        simp [baselineKept]
      · have hle : beU32 hdr ≤ s.lst.buffer_size := by omega
        rcases h2 : recvExactly (beU32 hdr) sr1 sockA with ⟨dr, sockB, sr2⟩
        cases dr with
        | none =>
          have heq := @streamBody_body_none decode readOk clock label s sock
            sockA sockB hdr sr1 sr2 hh hz hle h2
          rcases hyp with hyp | hyp <;> rw [heq] at hyp <;>
            simp only [Prod.mk.injEq, StepRes.brk.injEq, reduceCtorEq,
              false_and] at hyp
          obtain ⟨⟨hs1, _⟩, _⟩ := hyp
          left
          rw [← hs1]
          simp [baselineKept]
        | some data =>
          cases hd : decode data with
          | inr e =>
            have heq := @streamBody_decode_err decode readOk clock label s
              sock sockA sockB hdr data sr1 sr2 e hh hz hle h2 hd
            rcases hyp with hyp | hyp <;> rw [heq] at hyp <;>
              simp only [Prod.mk.injEq, StepRes.cont.injEq, reduceCtorEq,
                false_and] at hyp
            obtain ⟨⟨hs1, _⟩, _⟩ := hyp
            left
            rw [← hs1]
            simp [baselineKept]
          | inl j =>
            have heq := @streamBody_decode_ok decode readOk clock label s
              sock sockA sockB hdr data sr1 sr2 j hh hz hle h2 hd
            rcases hyp with hyp | hyp <;> rw [heq] at hyp <;>
              simp only [Prod.mk.injEq, StepRes.cont.injEq, reduceCtorEq,
                false_and] at hyp
            obtain ⟨⟨hs1, hsock⟩, _⟩ := hyp
            right
            refine ⟨data, j, sr2, ⟨hdr, sockA, sr1, hh, hz, hle, ?_⟩, hd, ?_⟩
            · rw [← hsock]
              exact h2
            · rw [← hs1]
              exact deliver_adv readOk clock j s _ (by simp) (by simp)
                (by simp) (by simp) (by simp)

/-- C1: in both run loops the interval baseline `prev_recv_time` advances
if and only if a message is successfully JSON-decoded.  UDP: a decoded
datagram advances the baseline (delivering the interval measured from the
previous baseline), a malformed datagram and every non-datagram outcome
keep it.  Stream loop: a fully read frame whose body decodes advances the
baseline, while a malformed body, a zero-length frame, an oversized frame
and every `break` exit keep it — and conversely, whenever an iteration does
not keep the baseline, some fully read frame body decoded successfully and
the baseline advanced through `deliver`. -/
theorem interval_baseline_iff_decode (decode : Bytes → Json ⊕ DecodeErr)
    (readOk : Json → Bool) (clock : Nat → Time) (label : String) :
    (∀ (s : LoopState) (data : Bytes) (j : Json), decode data = .inl j →
      baselineAdvanced clock j s
        (udpStep decode readOk clock s (.datagram data)).1) ∧
    (∀ (s : LoopState) (data : Bytes) (e : DecodeErr), decode data = .inr e →
      baselineKept s (udpStep decode readOk clock s (.datagram data)).1) ∧
    (∀ (s : LoopState) (ev : UdpEvent), (∀ data, ev ≠ .datagram data) →
      baselineKept s (udpStep decode readOk clock s ev).1) ∧
    (∀ (s : LoopState) (sock sock2 : StreamSock) (data : Bytes) (sr2 : Bool)
       (j : Json),
      streamReadsFrame s sock data sock2 sr2 → decode data = .inl j →
      ∃ s1 lg, streamBody decode readOk clock label s sock =
          (.cont s1 sock2, lg) ∧ baselineAdvanced clock j s s1) ∧
    (∀ (s : LoopState) (sock sock2 : StreamSock) (data : Bytes) (sr2 : Bool)
       (e : DecodeErr),
      streamReadsFrame s sock data sock2 sr2 → decode data = .inr e →
      ∃ s1 lg, streamBody decode readOk clock label s sock =
          (.cont s1 sock2, lg) ∧ baselineKept s s1) ∧
    (∀ (s : LoopState) (sock sock1 : StreamSock) (hdr : Bytes) (sr1 : Bool),
      recvExactly 4 s.lst.should_run sock = (some hdr, sock1, sr1) →
      beU32 hdr = 0 →
      ∃ s1, streamBody decode readOk clock label s sock =
          (.cont s1 sock1, []) ∧ baselineKept s s1) ∧
    (∀ (s : LoopState) (sock sock1 sock2 : StreamSock) (hdr : Bytes)
       (sr1 sr2 : Bool) (dr : Option Bytes),
      recvExactly 4 s.lst.should_run sock = (some hdr, sock1, sr1) →
      s.lst.buffer_size < beU32 hdr →
      recvExactly (beU32 hdr) sr1 sock1 = (dr, sock2, sr2) →
      ∃ s1, streamBody decode readOk clock label s sock =
          (.cont s1 sock2, [oversizedWarning (beU32 hdr)]) ∧
        baselineKept s s1) ∧
    (∀ (s s1 : LoopState) (sock sock1 : StreamSock) (lg : List String),
      streamBody decode readOk clock label s sock = (.brk s1 sock1, lg) →
      baselineKept s s1) ∧
    (∀ (s s1 : LoopState) (sock sock1 : StreamSock) (lg : List String),
      (streamBody decode readOk clock label s sock = (.cont s1 sock1, lg) ∨
       streamBody decode readOk clock label s sock = (.brk s1 sock1, lg)) →
      baselineKept s s1 ∨
      ∃ data j sr2, streamReadsFrame s sock data sock1 sr2 ∧
        decode data = .inl j ∧ baselineAdvanced clock j s s1) := by
  refine ⟨?_, ?_, ?_, ?_, ?_, ?_, ?_, ?_, ?_⟩
  · intro s data j h
    have hstep : (udpStep decode readOk clock s (.datagram data)).1 =
        (deliver readOk clock j
          { s with lst := { s.lst with has_received := true } }).1 := by
      simp [udpStep, h]
    rw [hstep]
    exact deliver_adv readOk clock j s _ (by simp) (by simp) (by simp)
      (by simp) (by simp)
  · intro s data e h
    simp [udpStep, h, baselineKept]
  · intro s ev h
    cases ev with
    | datagram data => exact absurd rfl (h data)
    | stop => simp [udpStep, baselineKept, Listener.stop_async]
    | timeout => simp [udpStep, baselineKept]
    | oserror => simp [udpStep, baselineKept]
  · intro s sock sock2 data sr2 j hframe hd
    obtain ⟨hdr, sockA, sr1, h1, h0, hle, h2⟩ := hframe
    refine ⟨_, _, @streamBody_decode_ok decode readOk clock label s sock
      sockA sock2 hdr data sr1 sr2 j h1 h0 hle h2 hd, ?_⟩
    exact deliver_adv readOk clock j s _ (by simp) (by simp) (by simp)
      (by simp) (by simp)
  · intro s sock sock2 data sr2 e hframe hd
    obtain ⟨hdr, sockA, sr1, h1, h0, hle, h2⟩ := hframe
    refine ⟨_, _, @streamBody_decode_err decode readOk clock label s sock
      sockA sock2 hdr data sr1 sr2 e h1 h0 hle h2 hd, ?_⟩
    simp [baselineKept]
  · intro s sock sock1 hdr sr1 h1 hz
    refine ⟨_, @streamBody_zero decode readOk clock label s sock sock1 hdr
      sr1 h1 hz, ?_⟩
    simp [baselineKept]
  · intro s sock sock1 sock2 hdr sr1 sr2 dr h1 hov h2
    refine ⟨_, @streamBody_oversized decode readOk clock label s sock sock1
      sock2 hdr sr1 sr2 dr h1 hov h2, ?_⟩
    simp [baselineKept]
  · intro s s1 sock sock1 lg hbrk
    rcases streamBody_baseline_cases decode readOk clock label s s1 sock
      sock1 lg (Or.inr hbrk) with hkept | ⟨data, j, sr2, hframe, hd, _⟩
    · exact hkept
    · obtain ⟨hdr, sockA, sr1, h1, h0, hle, h2⟩ := hframe
      have hcont := @streamBody_decode_ok decode readOk clock label s sock
        sockA sock1 hdr data sr1 sr2 j h1 h0 hle h2 hd
      rw [hcont] at hbrk
      simp at hbrk
  · intro s s1 sock sock1 lg hyp
    exact streamBody_baseline_cases decode readOk clock label s s1 sock
      sock1 lg hyp

/-- C2: in buffered (headless) mode, popping the queue returns exactly the
buffered `(document, receivedAt, interval)` entries in receive order, the
queue is then empty, and one further `pop_state` returns `None`; a stream
run started from a fresh headless listener leaves in the queue exactly the
entries it delivered, whose intervals chain gaplessly from the loop start
time, so every decoded message is observed exactly once, in order. -/
theorem buffered_fifo_exactly_once (decode : Bytes → Json ⊕ DecodeErr)
    (readOk : Json → Bool) (clock : Nat → Time) (label : String) :
    (∀ l : Listener,
      (popN l l.state_queue.length).1 = l.state_queue.map some ∧
      (popN l l.state_queue.length).2.state_queue = [] ∧
      (popN l (l.state_queue.length + 1)).1 =
        l.state_queue.map some ++ [none]) ∧
    (∀ (g : GlobalState) (fuel : Nat) (sock : StreamSock),
      chainFrom (clock 0)
        (streamLoop decode readOk clock label fuel
          (loopStart clock Listener.init.enable_headless_buffer g)
          sock).1.lst.state_queue) := by
  constructor
  · intro l
    have h1 := popN_exact l.state_queue l rfl
    have h2 := popN_exact_succ l.state_queue l rfl
    refine ⟨by rw [h1], by rw [h1], h2⟩
  · intro g fuel sock
    obtain ⟨d, h1, h2, h3, h4⟩ := streamLoopGo_queue decode readOk clock label
      fuel (loopStart clock Listener.init.enable_headless_buffer g) sock rfl
    have hq : (streamLoop decode readOk clock label fuel
        (loopStart clock Listener.init.enable_headless_buffer g)
        sock).1.lst.state_queue =
        (streamLoopGo decode readOk clock label fuel
          (loopStart clock Listener.init.enable_headless_buffer g)
          sock).1.lst.state_queue := by
      unfold streamLoop
      rcases hgo : streamLoopGo decode readOk clock label fuel
        (loopStart clock Listener.init.enable_headless_buffer g) sock with
        ⟨s1, sock1, b⟩
      cases b <;> simp
    rw [hq, h1]
    simpa [loopStart, Listener.init, Listener.enable_headless_buffer]
      using h2

/-- C10: each run loop initialises the interval baseline to the loop start
time (`time.time()` at clock tick 0), so after any headless run from a
fresh queue the recorded intervals chain gaplessly: the first delivered
entry's interval is its `recv_time` minus the loop start time and every
later entry's interval is its `recv_time` minus the previous entry's
`recv_time`; the final baseline is the last entry's `recv_time` (or the
start time when nothing was delivered). -/
theorem interval_chain_from_loop_start (decode : Bytes → Json ⊕ DecodeErr)
    (readOk : Json → Bool) (clock : Nat → Time) (label : String) :
    (∀ (l : Listener) (g : GlobalState),
      (loopStart clock l g).prev_recv_time = clock 0) ∧
    (∀ (l : Listener) (g : GlobalState) (evs : List UdpEvent),
      l.headless_buffer = true → l.state_queue = [] →
      chainFrom (clock 0)
        (udpRun decode readOk clock evs (loopStart clock l g)).lst.state_queue ∧
      (udpRun decode readOk clock evs (loopStart clock l g)).prev_recv_time =
        lastRecv (clock 0)
          (udpRun decode readOk clock evs (loopStart clock l g)).lst.state_queue) ∧
    (∀ (l : Listener) (g : GlobalState) (fuel : Nat) (sock : StreamSock),
      l.headless_buffer = true → l.state_queue = [] →
      chainFrom (clock 0)
        (streamLoopGo decode readOk clock label fuel
          (loopStart clock l g) sock).1.lst.state_queue ∧
      (streamLoopGo decode readOk clock label fuel
          (loopStart clock l g) sock).1.prev_recv_time =
        lastRecv (clock 0)
          (streamLoopGo decode readOk clock label fuel
            (loopStart clock l g) sock).1.lst.state_queue) := by
  refine ⟨fun l g => rfl, ?_, ?_⟩
  · intro l g evs hh hq
    obtain ⟨d, h1, h2, h3, h4⟩ :=
      udpRun_queue decode readOk clock evs (loopStart clock l g) hh
    simp only [loopStart] at h1 h2 h3 ⊢
    rw [hq] at h1
    simp only [List.nil_append] at h1
    rw [h1]
    exact ⟨h2, h3⟩
  · intro l g fuel sock hh hq
    obtain ⟨d, h1, h2, h3, h4⟩ :=
      streamLoopGo_queue decode readOk clock label fuel (loopStart clock l g)
        sock hh
    simp only [loopStart] at h1 h2 h3 ⊢
    rw [hq] at h1
    simp only [List.nil_append] at h1
    rw [h1]
    exact ⟨h2, h3⟩

lemma recvExactlyGo_done (n : Nat) (buf bytes : Bytes) (sr : Bool)
    (evs : List SockEvent) (h : ¬ buf.length < n) :
    recvExactlyGo n buf sr bytes evs = (some buf, ⟨bytes, evs⟩, sr) := by
  cases evs <;> (rw [recvExactlyGo.eq_def]; simp [h])

lemma recvExactly_prefix_read (n : Nat) (pre post : Bytes) (a : Nat)
    (evs : List SockEvent) (sr : Bool)
    (hlen : pre.length = n) (h0 : 0 < n) (ha : n ≤ a) :
    recvExactly n sr ⟨pre ++ post, .avail a :: evs⟩ =
      (some pre, ⟨post, evs⟩, sr) := by
  unfold recvExactly
  rw [recvExactlyGo.eq_def]
  have hmin : min a (n - (0 : Nat)) = n := by omega
  have htake : (pre ++ post).take n = pre := List.take_left' hlen
  have hdrop : (pre ++ post).drop pre.length = post := List.drop_left pre post
  have hne : pre.isEmpty = false := by
    cases pre
    · simp at hlen; omega
    · rfl
  simp only [List.length_nil, Nat.sub_zero, h0, if_pos, List.nil_append]
  have hmin2 : a ⊓ n = n := by omega
  rw [hmin2, htake, hne]
  simp only [Bool.false_eq_true, if_false]
  rw [hdrop, recvExactlyGo_done n pre post sr evs (by omega)]

lemma streamBody_goodFrame (decode : Bytes → Json ⊕ DecodeErr)
    (readOk : Json → Bool) (clock : Nat → Time) (label : String)
    (s : LoopState) (hb body rest : Bytes) (j : Json) (a b : Nat)
    (evs : List SockEvent)
    (hhb : hb.length = 4) (ha : 4 ≤ a) (hN : beU32 hb = body.length)
    (h0 : 0 < body.length) (hbs : body.length ≤ s.lst.buffer_size)
    (hb2 : body.length ≤ b) (hj : decode body = .inl j) :
    streamBody decode readOk clock label s
        ⟨hb ++ (body ++ rest), .avail a :: .avail b :: evs⟩ =
      (.cont (deliver readOk clock j { s with lst :=
          { s.lst with has_received := true } }).1 ⟨rest, evs⟩,
       (deliver readOk clock j { s with lst :=
          { s.lst with has_received := true } }).2) := by
  have h1 := recvExactly_prefix_read 4 hb (body ++ rest) a (.avail b :: evs)
    s.lst.should_run hhb (by omega) ha
  have h2 : recvExactly (beU32 hb) s.lst.should_run
      ⟨body ++ rest, .avail b :: evs⟩ =
      (some body, ⟨rest, evs⟩, s.lst.should_run) := by
    rw [hN]
    exact recvExactly_prefix_read body.length body rest b evs _ rfl h0 hb2
  have h0' : beU32 hb ≠ 0 := by omega
  have hle : beU32 hb ≤ s.lst.buffer_size := by omega
  exact streamBody_decode_ok h1 h0' hle h2 hj

/-- C3: a frame whose 4-byte big-endian length exceeds `buffer_size` makes
the stream loop print the oversized-message warning, drain the frame
(discarding exactly that many bytes when the drain completes), deliver
nothing, and continue; framing stays aligned, so a following well-formed
frame is decoded and delivered normally. -/
theorem oversized_frame_skip_realign (decode : Bytes → Json ⊕ DecodeErr)
    (readOk : Json → Bool) (clock : Nat → Time) (label : String)
    (s : LoopState) (sock sock1 sock2 : StreamSock) (hdr : Bytes)
    (sr1 sr2 : Bool) (dr : Option Bytes)
    (h1 : recvExactly 4 s.lst.should_run sock = (some hdr, sock1, sr1))
    (h2 : s.lst.buffer_size < beU32 hdr)
    (h3 : recvExactly (beU32 hdr) sr1 sock1 = (dr, sock2, sr2)) :
    streamBody decode readOk clock label s sock =
      (.cont { s with lst := { s.lst with should_run := sr2 } } sock2,
       [oversizedWarning (beU32 hdr)]) ∧
    (∀ d, dr = some d → d.length = beU32 hdr ∧
      sock2.bytes = sock1.bytes.drop (beU32 hdr)) ∧
    (∀ (hb body rest : Bytes) (j : Json) (a b : Nat) (evs : List SockEvent),
      sock2 = ⟨hb ++ (body ++ rest), .avail a :: .avail b :: evs⟩ →
      hb.length = 4 → 4 ≤ a → beU32 hb = body.length → 0 < body.length →
      body.length ≤ s.lst.buffer_size → body.length ≤ b →
      decode body = .inl j →
      streamBody decode readOk clock label
          { s with lst := { s.lst with should_run := sr2 } } sock2 =
        (.cont (deliver readOk clock j { s with lst :=
            { s.lst with should_run := sr2, has_received := true } }).1
          ⟨rest, evs⟩,
         (deliver readOk clock j { s with lst :=
            { s.lst with should_run := sr2, has_received := true } }).2)) := by
  refine ⟨streamBody_oversized h1 h2 h3, ?_, ?_⟩
  · intro d hd
    subst hd
    obtain ⟨hb1, hb2, hb3⟩ := recvExactly_some h3
    exact ⟨hb2, hb3⟩
  · intro hb body rest j a b evs hsock hhb ha hN h0 hbs hb2 hj
    subst hsock
    exact streamBody_goodFrame decode readOk clock label _ hb body rest j a b
      evs hhb ha hN h0 (by simpa using hbs) hb2 hj

/-- Witness for C3: over `clst` (frame ceiling 2), the frame `0003 999999`
is reported oversized and skipped, and the following frame `0002 0505`
still decodes. -/
theorem oversized_witness :
    (streamBody cdecode creadOk cclock "sp" cs0
        ⟨[0,0,0,3,9,9,9,0,0,0,2,5,5],
         [.avail 100, .avail 100, .avail 100, .avail 100]⟩).2 =
      [oversizedWarning 3] := by
  have h := oversized_frame_skip_realign cdecode creadOk cclock "sp" cs0
    ⟨[0,0,0,3,9,9,9,0,0,0,2,5,5],
     [.avail 100, .avail 100, .avail 100, .avail 100]⟩
    ⟨[9,9,9,0,0,0,2,5,5], [.avail 100, .avail 100, .avail 100]⟩
    ⟨[0,0,0,2,5,5], [.avail 100, .avail 100]⟩
    [0,0,0,3] true true (some [9,9,9]) (by decide) (by decide) (by decide)
  rw [h.1]
  rfl

/-- Counterexample for C5: in the UDP loop a non-timeout I/O error is not
fatal — after an `OSError` outcome the loop keeps running and still
delivers a later datagram (bare `except:` on line 52 retries everything). -/
theorem udp_oserror_not_fatal_cex :
    (udpRun cdecode creadOk cclock [.oserror, .datagram [5,6]] cs1).lst.state_queue =
      [⟨5, 10, 10⟩] ∧
    (udpRun cdecode creadOk cclock [.oserror, .datagram [5,6]] cs1).lst.should_run =
      true := by
  decide

/-- C5 (amended): a non-timeout I/O error is fatal to the stream run loops
only — `_recv_exactly` aborts with `None`, the loop body breaks, and the
`while` loop terminates; the UDP loop instead catches every receive
exception and continues unchanged. -/
theorem io_error_fatal_stream_only (decode : Bytes → Json ⊕ DecodeErr)
    (readOk : Json → Bool) (clock : Nat → Time) (label : String) :
    (∀ (n : Nat) (buf bytes : Bytes) (sr : Bool) (rest : List SockEvent),
      buf.length < n →
      recvExactlyGo n buf sr bytes (.oserror :: rest) =
        (none, ⟨bytes, rest⟩, sr)) ∧
    (∀ (s : LoopState) (sock sock1 : StreamSock) (sr1 : Bool),
      recvExactly 4 s.lst.should_run sock = (none, sock1, sr1) →
      ∃ s1 lg, streamBody decode readOk clock label s sock =
        (.brk s1 sock1, lg)) ∧
    (∀ (s : LoopState) (sock sock1 sock2 : StreamSock) (hdr : Bytes)
       (sr1 sr2 : Bool),
      recvExactly 4 s.lst.should_run sock = (some hdr, sock1, sr1) →
      beU32 hdr ≠ 0 → beU32 hdr ≤ s.lst.buffer_size →
      recvExactly (beU32 hdr) sr1 sock1 = (none, sock2, sr2) →
      ∃ s1 lg, streamBody decode readOk clock label s sock =
        (.brk s1 sock2, lg)) ∧
    (∀ (fuel : Nat) (s s1 : LoopState) (sock sock1 : StreamSock)
       (lg : List String),
      s.lst.should_run = true →
      streamBody decode readOk clock label s sock = (.brk s1 sock1, lg) →
      streamLoopGo decode readOk clock label (fuel + 1) s sock =
        (s1, sock1, true)) ∧
    (∀ s : LoopState, udpStep decode readOk clock s .oserror = (s, [])) := by
  refine ⟨?_, ?_, ?_, ?_, ?_⟩
  · intro n buf bytes sr rest hlt
    rw [recvExactlyGo.eq_def]
    simp [hlt]
  · intro s sock sock1 sr1 h
    exact ⟨_, _, streamBody_hdr_none h⟩
  · intro s sock sock1 sock2 hdr sr1 sr2 h1 h0 hle h2
    exact ⟨_, _, streamBody_body_none h1 h0 hle h2⟩
  · intro fuel s s1 sock sock1 lg hsr hb
    simp [streamLoopGo, hsr, hb]
  · intro s
    rfl

/-- Counterexample for C6: a stream-loop exit caused solely by `stop()` (a
`stop` then an idle timeout, no EOF, nothing printed) still ends with
`connection_closed = true`, because line 210 runs on every exit. -/
theorem connection_closed_on_stop_cex :
    (streamLoop cdecode creadOk cclock "sp" 5 cs1
      ⟨[], [.stop, .timeout]⟩).1.lst.connection_closed = true ∧
    (streamLoop cdecode creadOk cclock "sp" 5 cs1
      ⟨[], [.stop, .timeout]⟩).1.lst.should_run = false ∧
    (streamBody cdecode creadOk cclock "sp" cs1 ⟨[], [.stop, .timeout]⟩).2 =
      [] := by
  decide

/-- C6 (amended): after the stream loop exits — by peer hangup, stream
failure, or a requested stop alike — `connection_closed` is `true`; the
flag records only that the loop ended, it does not distinguish peer hangup
from `stop()`. -/
theorem connection_closed_always_set (decode : Bytes → Json ⊕ DecodeErr)
    (readOk : Json → Bool) (clock : Nat → Time) (label : String)
    (fuel : Nat) (s s1 : LoopState) (sock sock1 : StreamSock)
    (h : streamLoop decode readOk clock label fuel s sock =
      (s1, sock1, true)) :
    s1.lst.connection_closed = true := by
  unfold streamLoop at h
  rcases hgo : streamLoopGo decode readOk clock label fuel s sock with
    ⟨sA, sockA, b⟩
  rw [hgo] at h
  cases b
  · simp at h
  · simp only [Prod.mk.injEq] at h
    obtain ⟨h1, _, _⟩ := h
    rw [← h1]

/-- Witness for C6 (amended), at the stop-only exit of the counterexample's
run. -/
theorem connection_closed_witness :
    (streamLoop cdecode creadOk cclock "sp" 5 cs1
      ⟨[], [.stop, .timeout]⟩).1.lst.connection_closed = true := by
  exact connection_closed_always_set cdecode creadOk cclock "sp" 5 cs1
    (streamLoop cdecode creadOk cclock "sp" 5 cs1 ⟨[], [.stop, .timeout]⟩).1
    ⟨[], [.stop, .timeout]⟩
    (streamLoop cdecode creadOk cclock "sp" 5 cs1 ⟨[], [.stop, .timeout]⟩).2.1
    (by decide)

lemma indexOf_replicate_space (n : Nat) (tl : List Char) :
    (List.replicate n ' ' ++ '^' :: tl).indexOf '^' = n := by
  induction n with
  | zero => simp [List.indexOf_cons]
  | succ n ih =>
    rw [List.replicate_succ, List.cons_append, List.indexOf_cons]
    simp [ih]

/-- Counterexample for C7: a malformed payload on a stream transport is
logged as a single line with no context window and no caret — the whole
printed output of the step contains no `^` character at all. -/
theorem stream_decode_log_no_caret_cex :
    (streamBody cdecode creadOk cclock "sp" cs1
        ⟨[0,0,0,1,7], [.avail 100, .avail 100]⟩).2 =
      ["ERROR parsing received JSON: Expecting value (char 2)"] ∧
    ((streamBody cdecode creadOk cclock "sp" cs1
        ⟨[0,0,0,1,7], [.avail 100, .avail 100]⟩).2).all
      (fun ln => ln.toList.all (fun c => decide (c ≠ '^'))) = true := by
  decide

/-- C7 (amended): only the UDP loop logs the full decode diagnostic — the
error with its byte offset, the ±10-character window, and a caret aligned
under the window's midpoint (its column in the caret line matches the
midpoint's column in the snippet line); the stream loop prints a single
line carrying only the error and offset.  In both loops the malformed
message is discarded: the state is unchanged apart from `has_received`. -/
theorem decode_failure_diagnostics (decode : Bytes → Json ⊕ DecodeErr)
    (readOk : Json → Bool) (clock : Nat → Time) (label : String) :
    (∀ e : DecodeErr,
      udpJsonErrorLog e =
        ["ERROR parsing received text to JSON: " ++ errStr e,
         "\t" ++ "Received JSON: " ++ snippetOf e,
         "\t" ++ caretLineOf e] ∧
      ("\t" ++ caretLineOf e).toList.indexOf '^' =
        1 + "Received JSON: ".length + (snippetOf e).length / 2 ∧
      streamJsonErrorLog e = ["ERROR parsing received JSON: " ++ errStr e]) ∧
    (∀ (s : LoopState) (data : Bytes) (e : DecodeErr),
      decode data = .inr e →
      udpStep decode readOk clock s (.datagram data) =
        ({ s with lst := { s.lst with has_received := true } },
         udpJsonErrorLog e)) ∧
    (∀ (s : LoopState) (sock sock2 : StreamSock) (data : Bytes) (sr2 : Bool)
       (e : DecodeErr),
      streamReadsFrame s sock data sock2 sr2 → decode data = .inr e →
      streamBody decode readOk clock label s sock =
        (.cont { s with lst :=
          { s.lst with should_run := sr2, has_received := true } } sock2,
         streamJsonErrorLog e)) := by
  refine ⟨?_, ?_, ?_⟩
  · intro e
    refine ⟨rfl, ?_, rfl⟩
    show ('\t' :: (List.replicate ((snippetOf e).length / 2 +
      "Received JSON: ".length) ' ' ++ ('^' :: " HERE".toList))).indexOf '^' =
      1 + "Received JSON: ".length + (snippetOf e).length / 2
    rw [List.indexOf_cons]
    have htab : ('\t' == '^') = false := by decide
    rw [htab]
    simp only [Bool.false_eq_true, if_false, indexOf_replicate_space]
    show (snippetOf e).length / 2 + 15 + 1 = 1 + 15 + (snippetOf e).length / 2
    omega
  · intro s data e h
    simp [udpStep, h]
  · intro s sock sock2 data sr2 e hframe h
    obtain ⟨hdr, sock1, sr1, h1, h0, hle, h2⟩ := hframe
    exact streamBody_decode_err h1 h0 hle h2 h

/-- C8: in live mode, when `read_from_json` raises on a successfully
decoded document, the exception is caught (only an error line is printed
and the loop continues), yet `recv_time` and `recv_interval` are still
overwritten under the mutex and the interval baseline still advances, so
the live slot carries fresh timestamps next to the unchanged document. -/
theorem live_timestamps_despite_failed_apply
    (decode : Bytes → Json ⊕ DecodeErr) (readOk : Json → Bool)
    (clock : Nat → Time) (label : String) (s : LoopState) (data : Bytes)
    (j : Json) (h1 : s.lst.headless_buffer = false)
    (h2 : decode data = .inl j) (h3 : readOk j = false) :
    ((udpStep decode readOk clock s (.datagram data)).1.gs.doc = s.gs.doc ∧
     (udpStep decode readOk clock s (.datagram data)).1.gs.recv_time =
       clock s.tick ∧
     (udpStep decode readOk clock s (.datagram data)).1.gs.recv_interval =
       clock s.tick - s.prev_recv_time ∧
     (udpStep decode readOk clock s (.datagram data)).1.prev_recv_time =
       clock s.tick ∧
     (udpStep decode readOk clock s (.datagram data)).2 =
       ["ERROR reading received JSON:"]) ∧
    (∀ (sock sock2 : StreamSock) (sr2 : Bool),
      streamReadsFrame s sock data sock2 sr2 →
      ∃ s1, streamBody decode readOk clock label s sock =
          (.cont s1 sock2, ["ERROR reading received JSON:"]) ∧
        s1.gs.doc = s.gs.doc ∧ s1.gs.recv_time = clock s.tick ∧
        s1.gs.recv_interval = clock s.tick - s.prev_recv_time ∧
        s1.prev_recv_time = clock s.tick) := by
  constructor
  · refine ⟨?_, ?_, ?_, ?_, ?_⟩ <;> simp [udpStep, h2, deliver, h1, h3]
  · intro sock sock2 sr2 hframe
    obtain ⟨hdr, sock1, sr1, hh1, hh0, hhle, hh2⟩ := hframe
    have hmain := @streamBody_decode_ok decode readOk clock label s sock
      sock1 sock2 hdr data sr1 sr2 j hh1 hh0 hhle hh2 h2
    refine ⟨(deliver readOk clock j { s with lst :=
      { s.lst with should_run := sr2, has_received := true } }).1,
      ?_, ?_, ?_, ?_, ?_⟩
    · rw [hmain]
      simp [deliver, h1, h3]
    · simp [deliver, h1, h3]
    · simp [deliver, h1, h3]
    · simp [deliver, h1, h3]
    · simp [deliver, h1, h3]

/-- Witness for C8: document `9` fails to apply (`creadOk 9 = false`) in
live mode, yet the live slot's timestamps are overwritten and the document
stays `none`. -/
theorem live_timestamps_witness :
    (udpStep cdecode creadOk cclock cs2 (.datagram [9,0])).1.gs.doc = none ∧
    (udpStep cdecode creadOk cclock cs2 (.datagram [9,0])).1.gs.recv_time =
      10 := by
  have h := live_timestamps_despite_failed_apply cdecode creadOk cclock "sp"
    cs2 [9,0] 9 (by decide) (by decide) (by decide)
  refine ⟨?_, ?_⟩
  · rw [h.1.1]
    rfl
  · rw [h.1.2.1]
    rfl

lemma deliver_has_received (readOk : Json → Bool) (clock : Nat → Time)
    (j : Json) (s : LoopState) :
    (deliver readOk clock j s).1.lst.has_received = s.lst.has_received := by
  by_cases h : s.lst.headless_buffer = true <;>
    by_cases h2 : readOk j = true <;> simp [deliver, h, h2]

/-- C9: `has_received` is set as soon as a datagram arrives (UDP) or a
frame body is fully read (stream), before JSON decoding is attempted — so
it ends up `true` even when the payload is malformed — and it is left
untouched by receive errors, zero-length frames and oversized frames. -/
theorem has_received_before_decode (decode : Bytes → Json ⊕ DecodeErr)
    (readOk : Json → Bool) (clock : Nat → Time) (label : String) :
    (∀ (s : LoopState) (data : Bytes),
      (udpStep decode readOk clock s (.datagram data)).1.lst.has_received =
        true) ∧
    (∀ (s : LoopState) (ev : UdpEvent),
      ev = .timeout ∨ ev = .oserror ∨ ev = .stop →
      (udpStep decode readOk clock s ev).1.lst.has_received =
        s.lst.has_received) ∧
    (∀ (s : LoopState) (sock sock2 : StreamSock) (data : Bytes) (sr2 : Bool),
      streamReadsFrame s sock data sock2 sr2 →
      ∃ s1 lg, streamBody decode readOk clock label s sock =
          (.cont s1 sock2, lg) ∧ s1.lst.has_received = true) ∧
    (∀ (s : LoopState) (sock sock1 : StreamSock) (hdr : Bytes) (sr1 : Bool),
      recvExactly 4 s.lst.should_run sock = (some hdr, sock1, sr1) →
      beU32 hdr = 0 →
      streamBody decode readOk clock label s sock =
        (.cont { s with lst := { s.lst with should_run := sr1 } } sock1,
         [])) ∧
    (∀ (s : LoopState) (sock sock1 sock2 : StreamSock) (hdr : Bytes)
       (sr1 sr2 : Bool) (dr : Option Bytes),
      recvExactly 4 s.lst.should_run sock = (some hdr, sock1, sr1) →
      s.lst.buffer_size < beU32 hdr →
      recvExactly (beU32 hdr) sr1 sock1 = (dr, sock2, sr2) →
      streamBody decode readOk clock label s sock =
        (.cont { s with lst := { s.lst with should_run := sr2 } } sock2,
         [oversizedWarning (beU32 hdr)])) := by
  refine ⟨?_, ?_, ?_, ?_, ?_⟩
  · intro s data
    cases h : decode data <;> simp [udpStep, h, deliver_has_received]
  · intro s ev h
    rcases h with h | h | h <;> subst h <;>
      simp [udpStep, Listener.stop_async]
  · intro s sock sock2 data sr2 hframe
    obtain ⟨hdr, sock1, sr1, h1, h0, hle, h2⟩ := hframe
    cases hd : decode data with
    | inr e =>
      refine ⟨_, _, streamBody_decode_err h1 h0 hle h2 hd, by simp⟩
    | inl j =>
      refine ⟨_, _, streamBody_decode_ok h1 h0 hle h2 hd, ?_⟩
      rw [deliver_has_received]
  · intro s sock sock1 hdr sr1 h1 hz
    exact streamBody_zero h1 hz
  · intro s sock sock1 sock2 hdr sr1 sr2 dr h1 hov h2
    exact streamBody_oversized h1 hov h2

/-! ### Concrete end-to-end sanity checks of the embedding -/

/-- A two-frame stream run in headless mode: both documents are queued in
order with intervals measured from the loop start and from the previous
decode, and the EOF exit sets `connection_closed`. -/
theorem sanity_stream_run :
    (streamLoop cdecode creadOk cclock "sp" 10 cs1
        ⟨[0,0,0,2,7,8,0,0,0,2,3,4],
         [.avail 100, .avail 100, .avail 100, .avail 100, .avail 100]⟩).1 =
      { lst := { has_received := true, buffer_size := 1024 * 1024,
                 should_run := true, connection_closed := true,
                 headless_buffer := true,
                 state_queue := [⟨7, 10, 10⟩, ⟨3, 20, 10⟩] },
        gs := cgs, prev_recv_time := 20, tick := 3 } := by
  decide

/-- A UDP run in headless mode: a malformed datagram (length 1) neither
advances the baseline nor reaches the queue, while the surrounding valid
datagrams do; `has_received` is `true` nonetheless. -/
theorem sanity_udp_run :
    (udpRun cdecode creadOk cclock
        [.timeout, .datagram [5,6], .datagram [9], .datagram [1,2]]
        cs1).lst.state_queue = [⟨5, 10, 10⟩, ⟨1, 20, 10⟩] ∧
    (udpRun cdecode creadOk cclock [.datagram [9]] cs1).lst.state_queue =
      [] ∧
    (udpRun cdecode creadOk cclock [.datagram [9]] cs1).lst.has_received =
      true := by
  decide

/-- A zero-length frame is skipped without reaching the decoder and a stop
observed during the header read exits within the iteration. -/
theorem sanity_zero_and_stop :
    (streamLoop cdecode creadOk cclock "sp" 10 cs1
        ⟨[0,0,0,0,0,0,0,2,6,6], [.avail 4, .avail 100, .avail 100]⟩).1.lst.state_queue =
      [⟨6, 10, 10⟩] ∧
    (streamLoopGo cdecode creadOk cclock "sp" 10 cs1
        ⟨[], [.stop, .timeout]⟩).2.2 = true := by
  decide
